import Mathlib

/-!
Verification of the einfra agent: a shallow embedding of the identity,
enrollment, transport and dispatch logic of the Go sources, with theorems
about the embedded definitions.
-/

namespace EinfraAgent

/-!
SHA-256, modelled from Go crypto/sha256 on byte lists, with 32-bit words
represented as natural numbers reduced modulo 2 ^ 32.
-/

/-- Modulus of 32-bit machine words. -/
def w32 : Nat := 4294967296

/-- Right rotation of a 32-bit word. -/
def rotr32 (n x : Nat) : Nat := ((x >>> n) ||| (x <<< (32 - n))) % w32

/-- Bitwise complement of a 32-bit word. -/
def not32 (x : Nat) : Nat := x ^^^ (w32 - 1)

/-- Big-endian encoding of a number on a fixed number of bytes. -/
def beBytes : Nat → Nat → List Nat
  | 0, _ => []
  | k + 1, n => beBytes k (n / 256) ++ [n % 256]

/-- Round constants of SHA-256, written in decimal. -/
def sha256K : List Nat :=
  [1116352408, 1899447441, 3049323471, 3921009573, 961987163,
   1508970993, 2453635748, 2870763221, 3624381080, 310598401,
   607225278, 1426881987, 1925078388, 2162078206, 2614888103,
   3248222580, 3835390401, 4022224774, 264347078, 604807628,
   770255983, 1249150122, 1555081692, 1996064986, 2554220882,
   2821834349, 2952996808, 3210313671, 3336571891, 3584528711,
   113926993, 338241895, 666307205, 773529912, 1294757372,
   1396182291, 1695183700, 1986661051, 2177026350, 2456956037,
   2730485921, 2820302411, 3259730800, 3345764771, 3516065817,
   3600352804, 4094571909, 275423344, 430227734, 506948616,
   659060556, 883997877, 958139571, 1322822218, 1537002063,
   1747873779, 1955562222, 2024104815, 2227730452, 2361852424,
   2428436474, 2756734187, 3204031479, 3329325298]

/-- Initial hash state of SHA-256, written in decimal. -/
def sha256H0 : List Nat :=
  [1779033703, 3144134277, 1013904242, 2773480762,
   1359893119, 2600822924, 528734635, 1541459225]

/-- Schedule sigma-0 function. -/
def smallSig0 (x : Nat) : Nat := rotr32 7 x ^^^ rotr32 18 x ^^^ (x >>> 3)

/-- Schedule sigma-1 function. -/
def smallSig1 (x : Nat) : Nat := rotr32 17 x ^^^ rotr32 19 x ^^^ (x >>> 10)

/-- Round Sigma-0 function. -/
def bigSig0 (x : Nat) : Nat := rotr32 2 x ^^^ rotr32 13 x ^^^ rotr32 22 x

/-- Round Sigma-1 function. -/
def bigSig1 (x : Nat) : Nat := rotr32 6 x ^^^ rotr32 11 x ^^^ rotr32 25 x

/-- Choice function of the compression rounds. -/
def ch32 (e f g : Nat) : Nat := (e &&& f) ^^^ (not32 e &&& g)

/-- Majority function of the compression rounds. -/
def maj32 (a b c : Nat) : Nat := (a &&& b) ^^^ (a &&& c) ^^^ (b &&& c)

/-- Message schedule: expand the 16 block words to 64. -/
def sha256Schedule (block : List Nat) : List Nat :=
  (List.range 48).foldl
    (fun w _ =>
      let t := w.length
      w ++ [(smallSig1 (w.getD (t - 2) 0) + w.getD (t - 7) 0 +
             smallSig0 (w.getD (t - 15) 0) + w.getD (t - 16) 0) % w32])
    block

/-- One round of the SHA-256 compression function. -/
def sha256Round (st : List Nat) (kw : Nat × Nat) : List Nat :=
  match st with
  | [a, b, c, d, e, f, g, h] =>
    let t1 := (h + bigSig1 e + ch32 e f g + kw.1 + kw.2) % w32
    let t2 := (bigSig0 a + maj32 a b c) % w32
    [(t1 + t2) % w32, a, b, c, (d + t1) % w32, e, f, g]
  | other => other

/-- Compression of one 512-bit block into the hash state. -/
def sha256Compress (h : List Nat) (block : List Nat) : List Nat :=
  let st := (sha256K.zip (sha256Schedule block)).foldl sha256Round h
  (h.zip st).map (fun p => (p.1 + p.2) % w32)

/-- Group a byte list into big-endian 32-bit words. -/
def bytesToWords : List Nat → List Nat
  | b0 :: b1 :: b2 :: b3 :: rest =>
    (((b0 * 256 + b1) * 256 + b2) * 256 + b3) :: bytesToWords rest
  | _ => []

/-- Padding: a set bit, zeros up to 56 mod 64 bytes, then the 64-bit
big-endian bit length of the message. -/
def sha256Pad (msg : List Nat) : List Nat :=
  msg ++ [128] ++ List.replicate ((64 - (msg.length + 9) % 64) % 64) 0 ++
    beBytes 8 (msg.length * 8)

/-- Split a byte list into 64-byte chunks, with the length as fuel. -/
def chunks64Aux : Nat → List Nat → List (List Nat)
  | 0, _ => []
  | _, [] => []
  | fuel + 1, bs => bs.take 64 :: chunks64Aux fuel (bs.drop 64)

/-- Split a byte list into 64-byte chunks. -/
def chunks64 (bs : List Nat) : List (List Nat) := chunks64Aux bs.length bs

/-- SHA-256 digest of a byte list, as 32 bytes. -/
def sha256Bytes (msg : List Nat) : List Nat :=
  ((chunks64 (sha256Pad msg)).foldl
      (fun h blk => sha256Compress h (bytesToWords blk)) sha256H0).foldl
    (fun acc word => acc ++ beBytes 4 word) []

/-- Lowercase hexadecimal digit. -/
def hexDigit (n : Nat) : Char := if n < 10 then Char.ofNat (48 + n) else Char.ofNat (87 + n)

/-- Two-character lowercase hexadecimal rendering of a byte. -/
def hexByte (b : Nat) : String := String.mk [hexDigit (b / 16), hexDigit (b % 16)]

/-- Bytes of a string, as in a Go byte-slice conversion of a string. -/
def strBytes (s : String) : List Nat := s.toUTF8.toList.map (fun b => b.toNat)

/-- Hex-encoded SHA-256 digest of a string, matching
hex.EncodeToString over the sha256 sum in internal/identity. -/
def sha256Hex (s : String) : String := String.join ((sha256Bytes (strBytes s)).map hexByte)

/-!
Identity generation, embedded from internal/identity/identity.go. Host
state read by the package (operating system name, hostname, machine id
file, interface list) is passed explicitly.
-/

/-- Relevant fields of a Go net.Interface: the loopback flag and the
hardware address, where none models a nil HardwareAddr and some s models a
non-nil address rendering s. -/
structure NetInterface where
  loopback : Bool
  hardwareAddr : Option String
deriving DecidableEq

/-- Host state read by identity generation: runtime.GOOS, the hostname,
the content of the machine-id file when readable, the interface list where
none models a net.Interfaces error, and runtime.GOARCH. -/
structure Host where
  goos : String
  hostname : String
  machineID : Option String
  interfaces : Option (List NetInterface)
  arch : String

/-- Identity record of internal/identity. -/
structure Identity where
  nodeID : String
  fingerprint : String
  hostname : String
  platform : String
  arch : String

/-- TrimSpace from Go strings, on the character list of the string. -/
def trimSpace (s : String) : String :=
  String.mk (((s.data.dropWhile Char.isWhitespace).reverse.dropWhile
    Char.isWhitespace).reverse)

/-- getMACAddress from internal/identity: the rendered hardware address of
the first interface that is not loopback and has a non-nil address. -/
def getMACAddress (h : Host) : Except String String :=
  match h.interfaces with
  | none => Except.error "interfaces unavailable"
  | some ifaces =>
    match ifaces.find? (fun i => !i.loopback && i.hardwareAddr.isSome) with
    | some i => Except.ok (i.hardwareAddr.getD "")
    | none => Except.error "no MAC address found"

/-- Component list assembled by generateFingerprint: the trimmed machine id
on linux when readable, the hostname on windows, then the MAC address of
the first usable interface when one is found; each piece is skipped, not
fatal, when unavailable. -/
def fingerprintComponents (h : Host) : List String :=
  let base : List String :=
    if h.goos == "linux" then
      match h.machineID with
      | some m => [trimSpace m]
      | none => []
    else if h.goos == "windows" then [h.hostname]
    else []
  match getMACAddress h with
  | Except.ok mac => base ++ [mac]
  | Except.error _ => base

/-- generateFingerprint from internal/identity: the hex-encoded SHA-256 of
the components joined with a vertical bar separator; it never returns an
error. -/
def generateFingerprint (h : Host) : Except String String :=
  Except.ok (sha256Hex (String.intercalate "|" (fingerprintComponents h)))

/-- Generate from internal/identity, with freshUUID standing for the value
produced by uuid.New for this process start. -/
def Generate (h : Host) (freshUUID : String) : Except String Identity :=
  match generateFingerprint h with
  | Except.error e => Except.error ("failed to generate fingerprint: " ++ e)
  | Except.ok fp =>
    Except.ok { nodeID := freshUUID, fingerprint := fp, hostname := h.hostname,
                platform := h.goos, arch := h.arch }

/-!
Enrollment, embedded from internal/enroll/client.go. A polling run of
WaitForApproval is driven by the sequence of per-tick observations.
-/

/-- EnrollResponse from internal/enroll: the status string, the issued
certificate and CA certificate (present only on approval on the wire, but
nothing enforces that), and the backend message. -/
structure EnrollResponse where
  status : String
  certificate : String
  caCert : String
  message : String
deriving DecidableEq

/-- Observation of one iteration of the WaitForApproval select loop: the
context is cancelled, or a tick fires and the Enroll round-trip either
fails with a transport or decode error or yields a decoded response. -/
inductive PollEvent where
  | cancel : PollEvent
  | transportError : String → PollEvent
  | response : EnrollResponse → PollEvent
deriving DecidableEq

/-- Outcome of WaitForApproval: a returned response, a returned error, or
still polling after the given events. -/
inductive PollOutcome where
  | ok : EnrollResponse → PollOutcome
  | error : String → PollOutcome
  | polling : PollOutcome
deriving DecidableEq

/-- WaitForApproval from internal/enroll over per-tick events: a cancelled
context returns the context error; an Enroll error is logged and polling
continues; an approved response is returned as success with no inspection
of its certificate fields; a rejected response returns an error carrying
the backend message; any other status keeps polling. -/
def WaitForApproval : List PollEvent → PollOutcome
  | [] => PollOutcome.polling
  | PollEvent.cancel :: _ => PollOutcome.error "context canceled"
  | PollEvent.transportError _ :: rest => WaitForApproval rest
  | PollEvent.response r :: rest =>
    if r.status == "approved" then PollOutcome.ok r
    else if r.status == "rejected" then
      PollOutcome.error ("enrollment rejected: " ++ r.message)
    else WaitForApproval rest

/-- Events that end the polling loop: cancellation, or a response whose
status is approved or rejected. -/
def isTerminalEvent : PollEvent → Bool
  | PollEvent.cancel => true
  | PollEvent.transportError _ => false
  | PollEvent.response r => r.status == "approved" || r.status == "rejected"

/-- First terminal event of a polling run, if any. -/
def firstTerminal (events : List PollEvent) : Option PollEvent :=
  events.find? isTerminalEvent

/-- Verdict of a polling run as determined by its first terminal event. -/
def pollVerdict (events : List PollEvent) : PollOutcome :=
  match firstTerminal events with
  | none => PollOutcome.polling
  | some PollEvent.cancel => PollOutcome.error "context canceled"
  | some (PollEvent.transportError _) => PollOutcome.polling
  | some (PollEvent.response r) =>
    if r.status == "approved" then PollOutcome.ok r
    else PollOutcome.error ("enrollment rejected: " ++ r.message)

/-- Delivery time of tick number k (counted from zero) of a Go ticker with
period d, as created by time.NewTicker in WaitForApproval: the first tick
is delivered only after one full period. -/
def tickTime (d k : Nat) : Nat := (k + 1) * d

/-- Times at which WaitForApproval issues Enroll requests, mirroring its
loop: a request is sent only in the ticker branch of the select, so the
k-th processed tick event yields a request at tick time k; cancellation
consumes no tick and a terminal response ends the loop. -/
def enrollTimesAux (d : Nat) : Nat → List PollEvent → List Nat
  | _, [] => []
  | _, PollEvent.cancel :: _ => []
  | k, PollEvent.transportError _ :: rest => tickTime d k :: enrollTimesAux d (k + 1) rest
  | k, PollEvent.response r :: rest =>
    if r.status == "approved" || r.status == "rejected" then [tickTime d k]
    else tickTime d k :: enrollTimesAux d (k + 1) rest

/-- Enroll request times of a whole polling run. -/
def enrollTimes (d : Nat) (events : List PollEvent) : List Nat := enrollTimesAux d 0 events

/-!
Transport, embedded from internal/transport/client.go.
-/

/-- HTTP response as seen by DecodeJSON: status code and body. -/
structure HTTPResponse where
  statusCode : Nat
  body : String

/-- Outcome of DecodeJSON: a decoded value, the HTTP error built from the
status code and body, or a JSON decoding error. -/
inductive DecodeOutcome (α : Type) where
  | ok : α → DecodeOutcome α
  | httpError : Nat → String → DecodeOutcome α
  | decodeError : String → DecodeOutcome α

/-- DecodeJSON from internal/transport: a status code of 400 or above
becomes an error carrying the code and the body; otherwise the body is
decoded, with dec standing for the encoding/json decoder at the target
type of the call. -/
def DecodeJSON {α : Type} (dec : String → Except String α) (resp : HTTPResponse) :
    DecodeOutcome α :=
  if 400 ≤ resp.statusCode then DecodeOutcome.httpError resp.statusCode resp.body
  else
    match dec resp.body with
    | Except.ok v => DecodeOutcome.ok v
    | Except.error e => DecodeOutcome.decodeError e

/-- File and certificate-pool primitives used by EnableMTLS, passed
explicitly: loadKeyPair models tls.LoadX509KeyPair on the certificate and
key paths, readFile models os.ReadFile, and appendCertsFromPEM models the
success flag returned by the certificate pool when fed the bytes read. -/
structure TLSEnv where
  loadKeyPair : String → String → Except String Unit
  readFile : String → Except String String
  appendCertsFromPEM : String → Bool

/-- Result of EnableMTLS: mutual TLS enabled, or one of its two error
returns. -/
inductive MTLSResult where
  | ok : MTLSResult
  | errClientCert : String → MTLSResult
  | errCACert : String → MTLSResult
deriving DecidableEq

/-- EnableMTLS from internal/transport: it fails when the key pair fails
to load or parse, or when the CA file fails to read; the boolean result of
appendCertsFromPEM is discarded, exactly as in the source. -/
def EnableMTLS (env : TLSEnv) (certPath keyPath caPath : String) : MTLSResult :=
  match env.loadKeyPair certPath keyPath with
  | Except.error e => MTLSResult.errClientCert ("failed to load client cert: " ++ e)
  | Except.ok _ =>
    match env.readFile caPath with
    | Except.error e => MTLSResult.errCACert ("failed to load CA cert: " ++ e)
    | Except.ok caData =>
      let _ := env.appendCertsFromPEM caData
      MTLSResult.ok

/-!
Action dispatch, embedded from internal/executor/executor.go.
-/

/-- Dynamic JSON-like values carried in Action params and Result data. -/
inductive GoValue where
  | null : GoValue
  | bool : Bool → GoValue
  | num : Int → GoValue
  | str : String → GoValue
  | arr : List GoValue → GoValue
  | obj : List (String × GoValue) → GoValue

/-- Action from internal/executor. -/
structure Action where
  id : String
  type : String
  params : List (String × GoValue)
  timeout : Int

/-- Result from internal/executor. -/
structure Result where
  actionID : String
  success : Bool
  output : String
  error : String
  data : List (String × GoValue)

/-- Collaborator executor: its declared action kinds and its execute
method; the cancellation context is not consulted by the registry itself
and is omitted. -/
structure Executor where
  supportedActions : List String
  execute : Action → Result

/-- Registry from internal/executor, with the Go map represented as an
association list in which the most recent insertion is found first. -/
def Registry : Type := List (String × Executor)

/-- Lookup of the executor registered for an action type. -/
def Registry.find (r : Registry) (k : String) : Option Executor :=
  List.lookup k r

/-- Register from internal/executor: insert the executor under every kind
it declares; a later registration for a kind overrides an earlier one. -/
def Registry.Register (r : Registry) (exec : Executor) : Registry :=
  exec.supportedActions.foldl (fun acc t => (t, exec) :: acc) r

/-- Execute from internal/executor, instrumented with the list of
collaborator invocations performed (the action type dispatched on and the
action passed), so that the absence of any invocation is provable. -/
def Registry.Execute (r : Registry) (action : Action) : Result × List (String × Action) :=
  match Registry.find r action.type with
  | none =>
    ({ actionID := action.id, success := false, output := "",
       error := "unsupported action type: " ++ action.type, data := [] }, [])
  | some exec => (exec.execute action, [(action.type, action)])

/-!
Startup enrollment inference and the task loop body, embedded from
cmd/agent/main.go.
-/

/-- Presence check used at startup: a successful os.Stat is modelled as
membership of the path in the listing of existing files. -/
def fileExists (fs : List String) (path : String) : Bool := decide (path ∈ fs)

/-- Credential paths of the agent configuration. -/
structure AgentConfig where
  certPath : String
  keyPath : String
  caCertPath : String

/-- Enrollment inference at startup in cmd/agent/main.go: only the
certificate and key paths are consulted. -/
def checkEnrolled (fs : List String) (cfg : AgentConfig) : Bool :=
  fileExists fs cfg.certPath && fileExists fs cfg.keyPath

/-- Record of one iteration of the taskLoop batch body: the polled action,
the result produced by the registry, and whether the report POST
succeeded. -/
structure TaskReport where
  action : Action
  result : Result
  reported : Bool

/-- One poll tick of taskLoop in cmd/agent/main.go over a decoded batch:
each action is executed through the registry and its result posted to the
per-action result endpoint; a failed post is only logged, and the loop
body carries no state across iterations. post models the report call and
returns whether it succeeded. -/
def processBatch (r : Registry) (post : String → Result → Bool) (tasks : List Action) :
    List TaskReport :=
  tasks.map (fun task =>
    let result := (Registry.Execute r task).1
    { action := task, result := result,
      reported := post ("/api/v1/agent/tasks/" ++ task.id ++ "/result") result })

/-!
Claim theorems.
-/

/-- C1. The claim says an approved enrollment response with empty
certificate material is treated as a protocol error and never returned as
a successful enrollment. The code violates this: WaitForApproval returns
any approved response as success without inspecting its certificate
fields, so an approved response whose certificate and CA certificate are
both empty is accepted and handed to the caller, which then persists the
empty material. -/
theorem C1_approved_empty_certificate_accepted :
    WaitForApproval
        [PollEvent.response
          { status := "approved", certificate := "", caCert := "", message := "" }] =
      PollOutcome.ok
        { status := "approved", certificate := "", caCert := "", message := "" } := rfl

/-- C2, corrected. The claim says Generate fails exactly when no usable
network interface exists. In the code generateFingerprint ignores the
getMACAddress error and itself never returns an error, so Generate
succeeds on every host; this counterexample is a linux host with no
machine id and no interface at all, on which Generate still returns an
identity. -/
theorem C2_counterexample_generate_never_fails :
    Generate
        { goos := "linux", hostname := "host-a", machineID := none,
          interfaces := some [], arch := "amd64" } "uuid-1" =
      Except.ok
        { nodeID := "uuid-1",
          fingerprint := sha256Hex (String.intercalate "|" []),
          hostname := "host-a", platform := "linux", arch := "amd64" } := rfl

/-- C2, amended: Generate never returns an error; on every host it returns
an identity carrying the fresh node id, the fingerprint derived from the
host components, the hostname, platform and architecture. A missing usable
interface merely omits the MAC component of the fingerprint. -/
theorem C2_amended_generate_total (h : Host) (freshUUID : String) :
    Generate h freshUUID =
      Except.ok
        { nodeID := freshUUID,
          fingerprint := sha256Hex (String.intercalate "|" (fingerprintComponents h)),
          hostname := h.hostname, platform := h.goos, arch := h.arch } := rfl

/-- C4, counterexample. The claim says every non-2xx response becomes a
failure carrying status and body. The code only treats status 400 and
above as failure: a 302 response with no Location header is handed back by
the Go HTTP client, and when its body is decodable JSON, DecodeJSON
returns it as a plain success. -/
theorem C4_counterexample_status302_decoded :
    DecodeJSON
        (fun s => if s = "[]" then Except.ok ([] : List Action)
                  else Except.error "parse error")
        { statusCode := 302, body := "[]" } =
      DecodeOutcome.ok [] := rfl

/-- C4, amended: every response whose status code is at least 400 is
surfaced as a failure carrying the status code and the body, and is never
handed to the caller as a decoded success; status codes below 400,
including the non-2xx informational and redirect ranges, are not treated
as failures. -/
theorem C4_amended_error_status_failure {α : Type} (dec : String → Except String α)
    (resp : HTTPResponse) (h : 400 ≤ resp.statusCode) :
    DecodeJSON dec resp = DecodeOutcome.httpError resp.statusCode resp.body ∧
    ∀ v : α, DecodeJSON dec resp ≠ DecodeOutcome.ok v := by
  constructor
  · simp [DecodeJSON, h]
  · intro v hv
    simp [DecodeJSON, h] at hv

/-- Witness for the amended C4 theorem at a concrete 500 response. -/
theorem C4_amended_error_status_failure_witness :
    DecodeJSON (fun _ => (Except.error "unused" : Except String Nat))
        { statusCode := 500, body := "boom" } =
      DecodeOutcome.httpError 500 "boom" :=
  (C4_amended_error_status_failure (fun _ => Except.error "unused")
    { statusCode := 500, body := "boom" } (by decide)).1

/-- C5. The claim says EnableMTLS returns an error whenever any of the
three inputs fails to load or parse. The code checks the key pair load and
the CA file read, but discards the boolean returned when the CA bytes are
added to the certificate pool: with a readable CA file containing no valid
PEM certificate, EnableMTLS still reports success, leaving an empty trust
pool. -/
theorem C5_unparsable_ca_accepted :
    EnableMTLS
        { loadKeyPair := fun _ _ => Except.ok (),
          readFile := fun _ => Except.ok "not a pem certificate",
          appendCertsFromPEM := fun _ => false }
        "/var/lib/einfra-agent/certs/agent.crt"
        "/var/lib/einfra-agent/certs/agent.key"
        "/var/lib/einfra-agent/certs/ca.crt" = MTLSResult.ok := rfl

/-- C6. Dispatching an action whose type is not registered returns a
result with success false, an error naming the unsupported type, and the
action id echoed, and invokes no collaborator executor. -/
theorem C6_unregistered_type_result (r : Registry) (a : Action)
    (h : Registry.find r a.type = none) :
    (Registry.Execute r a).1.success = false ∧
    (Registry.Execute r a).1.error = "unsupported action type: " ++ a.type ∧
    (Registry.Execute r a).1.actionID = a.id ∧
    (Registry.Execute r a).2 = [] := by
  simp [Registry.Execute, h]

/-- Witness for the C6 theorem on the empty registry and a concrete
action. -/
theorem C6_unregistered_type_result_witness :
    (Registry.Execute ([] : Registry)
        { id := "a-1", type := "deploy", params := [], timeout := 0 }).1.success = false ∧
    (Registry.Execute ([] : Registry)
        { id := "a-1", type := "deploy", params := [], timeout := 0 }).2 = [] := by
  have h := C6_unregistered_type_result ([] : Registry)
    { id := "a-1", type := "deploy", params := [], timeout := 0 } rfl
  exact ⟨h.1, h.2.2.2⟩

/-- C8, counterexample. The claim says the agent infers already enrolled
exactly when all three credential files are present. The code consults
only the certificate and key paths: with both present and the CA
certificate file absent, enrollment is still inferred. -/
theorem C8_counterexample_ca_not_consulted :
    checkEnrolled
        ["/var/lib/einfra-agent/certs/agent.crt", "/var/lib/einfra-agent/certs/agent.key"]
        { certPath := "/var/lib/einfra-agent/certs/agent.crt",
          keyPath := "/var/lib/einfra-agent/certs/agent.key",
          caCertPath := "/var/lib/einfra-agent/certs/ca.crt" } = true ∧
    fileExists
        ["/var/lib/einfra-agent/certs/agent.crt", "/var/lib/einfra-agent/certs/agent.key"]
        "/var/lib/einfra-agent/certs/ca.crt" = false := by
  decide

/-- C8, amended: enrollment is inferred exactly when the certificate and
private key files are both present; the CA certificate path is not
consulted, so adding or removing the CA file leaves the inference
unchanged. -/
theorem C8_amended_cert_key_signal (fs : List String) (cfg : AgentConfig) :
    (checkEnrolled fs cfg = true ↔
      (fileExists fs cfg.certPath = true ∧ fileExists fs cfg.keyPath = true)) ∧
    (cfg.certPath ≠ cfg.caCertPath → cfg.keyPath ≠ cfg.caCertPath →
      checkEnrolled (fs.filter (fun p => p != cfg.caCertPath)) cfg = checkEnrolled fs cfg) := by
  constructor
  · simp [checkEnrolled]
  · intro h1 h2
    have key : ∀ q : String, q ≠ cfg.caCertPath →
        fileExists (fs.filter (fun p => p != cfg.caCertPath)) q = fileExists fs q := by
      intro q hq
      apply decide_eq_decide.mpr
      simp [List.mem_filter, hq]
    simp only [checkEnrolled, key cfg.certPath h1, key cfg.keyPath h2]

/-- Witness for the amended C8 theorem: removing the CA certificate file
from a concrete file system leaves the enrollment inference unchanged. -/
theorem C8_amended_cert_key_signal_witness :
    checkEnrolled
        ((["/a/agent.crt", "/a/agent.key", "/a/ca.crt"]).filter (fun p => p != "/a/ca.crt"))
        { certPath := "/a/agent.crt", keyPath := "/a/agent.key", caCertPath := "/a/ca.crt" } =
      checkEnrolled ["/a/agent.crt", "/a/agent.key", "/a/ca.crt"]
        { certPath := "/a/agent.crt", keyPath := "/a/agent.key", caCertPath := "/a/ca.crt" } :=
  (C8_amended_cert_key_signal ["/a/agent.crt", "/a/agent.key", "/a/ca.crt"]
    { certPath := "/a/agent.crt", keyPath := "/a/agent.key",
      caCertPath := "/a/ca.crt" }).2 (by decide) (by decide)

/-- C9. One poll batch produces exactly one report per action, in the
order received, and the report of position k is a function of the k-th
action alone, so neither a failing collaborator result nor a failed report
post for an earlier action affects the execution or reporting of later
actions in the batch. -/
theorem C9_batch_order_isolation (r : Registry) (post : String → Result → Bool)
    (tasks : List Action) :
    (processBatch r post tasks).length = tasks.length ∧
    ∀ (k : Nat) (t : Action), tasks[k]? = some t →
      (processBatch r post tasks)[k]? = some
        { action := t, result := (Registry.Execute r t).1,
          reported := post ("/api/v1/agent/tasks/" ++ t.id ++ "/result")
            ((Registry.Execute r t).1) } := by
  constructor
  · simp [processBatch]
  · intro k t ht
    simp [processBatch, ht]

/-- Witness for the C9 theorem: in a concrete two-action batch where every
report post fails, the second action still gets its own report. -/
theorem C9_batch_order_isolation_witness :
    (processBatch ([] : Registry) (fun _ _ => false)
        [{ id := "t0", type := "svc_restart", params := [], timeout := 0 },
         { id := "t1", type := "system_metrics", params := [], timeout := 0 }])[1]? = some
      { action := { id := "t1", type := "system_metrics", params := [], timeout := 0 },
        result := (Registry.Execute ([] : Registry)
          { id := "t1", type := "system_metrics", params := [], timeout := 0 }).1,
        reported := false } :=
  (C9_batch_order_isolation ([] : Registry) (fun _ _ => false)
    [{ id := "t0", type := "svc_restart", params := [], timeout := 0 },
     { id := "t1", type := "system_metrics", params := [], timeout := 0 }]).2 1
    { id := "t1", type := "system_metrics", params := [], timeout := 0 } rfl

/-- C3, counterexample. The claim says hosts with different stable inputs
produce different fingerprints, digest collisions aside. The components
are joined with a vertical bar before hashing, and the join is not
injective: a host whose machine id is the string a vertical-bar b with no
usable interface, and a host whose machine id is a with a MAC rendered b,
have different component inputs yet feed the identical string to the
digest, so their fingerprints coincide without any digest collision. -/
theorem C3_counterexample_join_ambiguity :
    fingerprintComponents
        { goos := "linux", hostname := "host-a", machineID := some "a|b",
          interfaces := some [], arch := "amd64" } ≠
      fingerprintComponents
        { goos := "linux", hostname := "host-b", machineID := some "a",
          interfaces := some [{ loopback := false, hardwareAddr := some "b" }],
          arch := "amd64" } ∧
    generateFingerprint
        { goos := "linux", hostname := "host-a", machineID := some "a|b",
          interfaces := some [], arch := "amd64" } =
      generateFingerprint
        { goos := "linux", hostname := "host-b", machineID := some "a",
          interfaces := some [{ loopback := false, hardwareAddr := some "b" }],
          arch := "amd64" } := by
  constructor
  · decide
  · rfl

/-- C3, amended: the fingerprint is the hex-encoded SHA-256 of the
components joined with a vertical bar; two generations with unchanged
component inputs agree; and hosts whose joined component strings hash to
different digests have different fingerprints. Distinct component lists
may still share a fingerprint when the joined strings coincide, because
the join is not injective. -/
theorem C3_amended_fingerprint (h1 h2 : Host) :
    generateFingerprint h1 =
      Except.ok (sha256Hex (String.intercalate "|" (fingerprintComponents h1))) ∧
    (fingerprintComponents h1 = fingerprintComponents h2 →
      generateFingerprint h1 = generateFingerprint h2) ∧
    (sha256Hex (String.intercalate "|" (fingerprintComponents h1)) ≠
        sha256Hex (String.intercalate "|" (fingerprintComponents h2)) →
      generateFingerprint h1 ≠ generateFingerprint h2) := by
  refine ⟨rfl, ?_, ?_⟩
  · intro hc
    simp [generateFingerprint, hc]
  · intro hne heq
    apply hne
    simpa [generateFingerprint] using heq

/-- Witness for the amended C3 theorem: two hosts with the same stable
inputs but different hostname and architecture have equal fingerprints. -/
theorem C3_amended_fingerprint_witness :
    generateFingerprint
        { goos := "linux", hostname := "first", machineID := some "machine-1",
          interfaces := some [{ loopback := false, hardwareAddr := some "aa:bb:cc" }],
          arch := "amd64" } =
      generateFingerprint
        { goos := "linux", hostname := "second", machineID := some "machine-1",
          interfaces := some [{ loopback := false, hardwareAddr := some "aa:bb:cc" }],
          arch := "arm64" } :=
  (C3_amended_fingerprint
    { goos := "linux", hostname := "first", machineID := some "machine-1",
      interfaces := some [{ loopback := false, hardwareAddr := some "aa:bb:cc" }],
      arch := "amd64" }
    { goos := "linux", hostname := "second", machineID := some "machine-1",
      interfaces := some [{ loopback := false, hardwareAddr := some "aa:bb:cc" }],
      arch := "arm64" }).2.1 rfl

/-- WaitForApproval computes exactly the verdict of the first terminal
event of the run. -/
theorem waitForApproval_eq_pollVerdict (events : List PollEvent) :
    WaitForApproval events = pollVerdict events := by
  induction events with
  | nil => rfl
  | cons e rest ih =>
    cases e with
    | cancel =>
      simp [WaitForApproval, pollVerdict, firstTerminal, List.find?, isTerminalEvent]
    | transportError m =>
      simpa [WaitForApproval, pollVerdict, firstTerminal, List.find?, isTerminalEvent] using ih
    | response r =>
      by_cases ha : r.status = "approved"
      · simp [WaitForApproval, pollVerdict, firstTerminal, List.find?, isTerminalEvent, ha]
      · by_cases hr : r.status = "rejected"
        · simp [WaitForApproval, pollVerdict, firstTerminal, List.find?, isTerminalEvent,
            ha, hr]
        · have ha' : (r.status == "approved") = false := beq_eq_false_iff_ne.mpr ha
          have hr' : (r.status == "rejected") = false := beq_eq_false_iff_ne.mpr hr
          simpa [WaitForApproval, pollVerdict, firstTerminal, List.find?, isTerminalEvent,
            ha, hr, ha', hr'] using ih

/-- C7. Over every polling run, WaitForApproval returns an error exactly
when the first terminal event is a cancellation or a rejected response, in
the latter case carrying the backend message; it returns success exactly
when the first terminal event is an approved response; and a transport
error or a pending response never terminates the loop. -/
theorem C7_wait_for_approval_outcomes (events : List PollEvent) :
    ((∃ m, WaitForApproval events = PollOutcome.error m) ↔
      (firstTerminal events = some PollEvent.cancel ∨
        ∃ r, firstTerminal events = some (PollEvent.response r) ∧ r.status = "rejected")) ∧
    ((∃ r, WaitForApproval events = PollOutcome.ok r) ↔
      (∃ r, firstTerminal events = some (PollEvent.response r) ∧ r.status = "approved")) ∧
    (∀ m rest, WaitForApproval (PollEvent.transportError m :: rest) = WaitForApproval rest) ∧
    (∀ r rest, r.status = "pending" →
      WaitForApproval (PollEvent.response r :: rest) = WaitForApproval rest) ∧
    (∀ r, firstTerminal events = some (PollEvent.response r) → r.status = "rejected" →
      WaitForApproval events = PollOutcome.error ("enrollment rejected: " ++ r.message)) := by
  refine ⟨?_, ?_, ?_, ?_, ?_⟩
  · rw [waitForApproval_eq_pollVerdict]
    cases h : firstTerminal events with
    | none => simp [pollVerdict, h]
    | some e =>
      have hp : isTerminalEvent e = true := List.find?_some h
      cases e with
      | cancel => simp [pollVerdict, h]
      | transportError m => simp [isTerminalEvent] at hp
      | response r =>
        by_cases ha : r.status = "approved"
        · simp [pollVerdict, h, ha]
        · have hr : r.status = "rejected" := by
            simpa [isTerminalEvent, ha] using hp
          simp [pollVerdict, h, ha, hr]
  · rw [waitForApproval_eq_pollVerdict]
    cases h : firstTerminal events with
    | none => simp [pollVerdict, h]
    | some e =>
      have hp : isTerminalEvent e = true := List.find?_some h
      cases e with
      | cancel => simp [pollVerdict, h]
      | transportError m => simp [isTerminalEvent] at hp
      | response r =>
        by_cases ha : r.status = "approved"
        · simp [pollVerdict, h, ha]
        · have hr : r.status = "rejected" := by
            simpa [isTerminalEvent, ha] using hp
          simp [pollVerdict, h, ha, hr]
  · intro m rest
    rfl
  · intro r rest hpend
    simp [WaitForApproval, hpend]
  · intro r h hr
    have ha : r.status ≠ "approved" := by
      rw [hr]
      decide
    rw [waitForApproval_eq_pollVerdict]
    simp [pollVerdict, h, ha]

/-- Witness for the C7 theorem: a pending response leaves the loop exactly
where it was. -/
theorem C7_wait_for_approval_outcomes_witness :
    WaitForApproval
        [PollEvent.response
          { status := "pending", certificate := "", caCert := "", message := "" },
         PollEvent.cancel] =
      WaitForApproval [PollEvent.cancel] :=
  (C7_wait_for_approval_outcomes []).2.2.2.1
    { status := "pending", certificate := "", caCert := "", message := "" }
    [PollEvent.cancel] rfl

/-- Every request time recorded by the polling loop belongs to a tick at
or after the position it started from. -/
theorem enrollTimesAux_mem (d : Nat) :
    ∀ (k : Nat) (events : List PollEvent) (t : Nat),
      t ∈ enrollTimesAux d k events → ∃ j, k ≤ j ∧ t = tickTime d j := by
  intro k events
  induction events generalizing k with
  | nil =>
    intro t ht
    simp [enrollTimesAux] at ht
  | cons e rest ih =>
    intro t ht
    cases e with
    | cancel => simp [enrollTimesAux] at ht
    | transportError m =>
      simp only [enrollTimesAux, List.mem_cons] at ht
      rcases ht with h | h
      · exact ⟨k, Nat.le_refl k, h⟩
      · obtain ⟨j, hj, hjt⟩ := ih (k + 1) t h
        exact ⟨j, Nat.le_trans (Nat.le_succ k) hj, hjt⟩
    | response r =>
      by_cases hterm : (r.status == "approved" || r.status == "rejected") = true
      · simp [enrollTimesAux, hterm] at ht
        exact ⟨k, Nat.le_refl k, ht⟩
      · simp only [enrollTimesAux, if_neg hterm, List.mem_cons] at ht
        rcases ht with h | h
        · exact ⟨k, Nat.le_refl k, h⟩
        · obtain ⟨j, hj, hjt⟩ := ih (k + 1) t h
          exact ⟨j, Nat.le_trans (Nat.le_succ k) hj, hjt⟩

/-- The first request time recorded by the polling loop is the tick the
loop was started at. -/
theorem enrollTimesAux_head (d k : Nat) (events : List PollEvent) (t : Nat)
    (h : (enrollTimesAux d k events).head? = some t) : t = tickTime d k := by
  cases events with
  | nil => simp [enrollTimesAux] at h
  | cons e rest =>
    cases e with
    | cancel => simp [enrollTimesAux] at h
    | transportError m =>
      simp [enrollTimesAux] at h
      exact h.symm
    | response r =>
      by_cases hterm : (r.status == "approved" || r.status == "rejected") = true
      · simp only [enrollTimesAux, if_pos hterm, List.head?_cons, Option.some.injEq] at h
        exact h.symm
      · simp only [enrollTimesAux, if_neg hterm, List.head?_cons, Option.some.injEq] at h
        exact h.symm

/-- C10. Every Enroll request of a polling run is issued at a tick time of
the interval ticker, hence no earlier than one full interval after the
loop starts, and the first request is issued exactly at one interval. -/
theorem C10_requests_only_at_ticks (d : Nat) (events : List PollEvent) :
    (∀ t ∈ enrollTimes d events, d ≤ t ∧ ∃ k, t = tickTime d k) ∧
    (∀ t, (enrollTimes d events).head? = some t → t = d) := by
  constructor
  · intro t ht
    obtain ⟨j, _, hjt⟩ := enrollTimesAux_mem d 0 events t ht
    refine ⟨?_, ⟨j, hjt⟩⟩
    rw [hjt]
    calc d = 1 * d := (Nat.one_mul d).symm
    _ ≤ (j + 1) * d := Nat.mul_le_mul_right d (Nat.succ_le_succ (Nat.zero_le j))
  · intro t ht
    have := enrollTimesAux_head d 0 events t ht
    simpa [tickTime] using this

/-- Witness for the C10 theorem: with a ten-unit interval, the single
request of a one-event run is issued at time ten, not before. -/
theorem C10_requests_only_at_ticks_witness :
    (10 : Nat) ≤ 10 ∧ ∃ k, (10 : Nat) = tickTime 10 k :=
  (C10_requests_only_at_ticks 10 [PollEvent.transportError "connection refused"]).1 10
    (by decide)

end EinfraAgent
